import Mathlib

/-!
Verification development for the `minils` directory-listing tool
(sources: src/lib.rs and src/main.rs).

The Rust code is shallowly embedded: the mutable option structs become
Lean structures, the left-to-right argument scan becomes a recursive
function over the argument list, `print!`-style output is modelled as
string concatenation, and the process-terminating paths (`process::exit`)
become constructors of an `Outcome` type.  Rust `u64` sizes and `u32`
mode bits are modelled as `Nat`: the only operations performed on them
are comparisons, truncating division and bit masking, none of which can
overflow in the source.  The short-option scan iterates over bytes in
Rust; it is modelled over characters here, which agrees with the source
on all ASCII arguments (the option table itself is pure ASCII, and a
non-ASCII unit errors out in both views).
-/

namespace Minils

/-- Mirrors `struct DisplayOptions` of src/lib.rs. -/
structure DisplayOptions where
  oneline : Bool
  grid : Bool
  long : Bool
  recurse : Bool
deriving DecidableEq, Repr

/-- Mirrors `struct FilteringOptions` of src/lib.rs. -/
structure FilteringOptions where
  all : Bool
  list_dirs : Bool
  only_dirs : Bool
  only_files : Bool
deriving DecidableEq, Repr

/-- Defaults created in `main` (src/main.rs): grid active, rest off. -/
def initDisplay : DisplayOptions :=
  { oneline := false, grid := true, long := false, recurse := false }

/-- Defaults created in `main` (src/main.rs): all filters off. -/
def initFilter : FilteringOptions :=
  { all := false, list_dirs := false, only_dirs := false, only_files := false }

def initState : DisplayOptions × FilteringOptions := (initDisplay, initFilter)

/-- Rust `str::starts_with`, stated over the character data so that it
reduces definitionally. -/
def strStarts (s p : String) : Bool := p.data.isPrefixOf s.data

/-- The long-option table of `parse_arguments` (src/lib.rs lines 66-94).
Each recognised option is mapped to the state update its match arm
performs; `none` corresponds to the `InvalidOption` arm. -/
def longAction (el : String) :
    Option (DisplayOptions × FilteringOptions → DisplayOptions × FilteringOptions) :=
  match el with
  | "--oneline" => some fun (d, f) => ({ d with oneline := true, grid := false }, f)
  | "--long" => some fun (d, f) => ({ d with long := true, oneline := true, grid := false }, f)
  | "--grid" => some fun (d, f) => ({ d with grid := true, long := false, oneline := false }, f)
  | "--recurse" => some fun (d, f) => ({ d with recurse := true, grid := false }, f)
  | "--all" => some fun (d, f) => (d, { f with all := true })
  | "--list-dirs" => some fun (d, f) => (d, { f with list_dirs := true })
  | "--only-dirs" => some fun (d, f) => (d, { f with only_dirs := true, all := false })
  | "--only-files" => some fun (d, f) => (d, { f with only_files := true, all := false })
  | _ => none

/-- The short-option table of `parse_arguments` (src/lib.rs lines 114-153).
`none` corresponds to the `InvalidOption` arm for an unrecognised byte. -/
def shortAction (c : Char) :
    Option (DisplayOptions × FilteringOptions → DisplayOptions × FilteringOptions) :=
  match c with
  | '1' => some fun (d, f) => ({ d with oneline := true, grid := false }, f)
  | 'l' => some fun (d, f) => ({ d with long := true, oneline := true, grid := false }, f)
  | 'G' => some fun (d, f) => ({ d with grid := true, long := false, oneline := false }, f)
  | 'R' => some fun (d, f) => ({ d with recurse := true, grid := false }, f)
  | 'a' => some fun (d, f) => (d, { f with all := true })
  | 'd' => some fun (d, f) => (d, { f with list_dirs := true })
  | 'D' => some fun (d, f) =>
      (d, { f with only_dirs := true, only_files := false, all := false })
  | 'f' => some fun (d, f) =>
      (d, { f with only_files := true, only_dirs := false, all := false })
  | _ => none

/-- One long-option match arm applied to the current state. -/
def stepLong (el : String) (st : DisplayOptions × FilteringOptions) :
    Option (DisplayOptions × FilteringOptions) :=
  (longAction el).map fun g => g st

/-- One short-option character applied to the current state. -/
def stepShort (st : DisplayOptions × FilteringOptions) (c : Char) :
    Option (DisplayOptions × FilteringOptions) :=
  (shortAction c).map fun g => g st

/-- The per-character loop over a short-option cluster (src/lib.rs
lines 114-154); on the first unrecognised character the program exits,
here surfaced as `Except.error` carrying that character. -/
def stepCluster (st : DisplayOptions × FilteringOptions) :
    List Char → Except Char (DisplayOptions × FilteringOptions)
  | [] => .ok st
  | c :: cs =>
    match stepShort st c with
    | some st' => stepCluster st' cs
    | none => .error c

/-- The effect of one scanned argument on the option state, `none` when
the scan does not continue past it with a pure state update (invalid
option, bare dash, or a positional argument). -/
def applyArg (st : DisplayOptions × FilteringOptions) (el : String) :
    Option (DisplayOptions × FilteringOptions) :=
  if strStarts el "--" then stepLong el st
  else if strStarts el "-" then
    if el.length < 2 then none
    else (stepCluster st (el.data.drop 1)).toOption
  else none

/-- Option state after processing a prefix of flag arguments, `none` as
soon as one of them aborts the scan. -/
def stateAfter (st : DisplayOptions × FilteringOptions) (els : List String) :
    Option (DisplayOptions × FilteringOptions) :=
  els.foldlM applyArg st

/-- An argument the scan consumes as a valid flag (recognised long
option, or a dash cluster of length at least 2 whose characters are all
in the short table). -/
def validFlag (el : String) : Bool :=
  if strStarts el "--" then (longAction el).isSome
  else if strStarts el "-" then
    if el.length < 2 then false
    else (el.data.drop 1).all fun c => (shortAction c).isSome
  else false

/-- Whether an argument sets the recurse flag (`--recurse`, or a short
cluster containing `R`). -/
def mentionsRecurse (el : String) : Bool :=
  (el == "--recurse") ||
    (!strStarts el "--" && strStarts el "-" && (el.data.drop 1).contains 'R')

/-- Whether an argument is one of the long-form only-flags. -/
def longOnlyFlag (el : String) : Bool :=
  (el == "--only-dirs") || (el == "--only-files")

/-- The three render styles of the spec data model. -/
inductive Mode where
  | oneline
  | grid
  | long
deriving DecidableEq, Repr

/-- The render style a `DisplayOptions` value actually selects in the
renderer: `long` dominates (it gates the table and forces the line
break), then `oneline`, then `grid`; `none` when all three flags are
off. -/
def activeMode (d : DisplayOptions) : Option Mode :=
  if d.long then some .long
  else if d.oneline then some .oneline
  else if d.grid then some .grid
  else none

/-- Number of active modes among {Long, OneLine, Grid}, where `long`
subsumes the `oneline` flag it forces. -/
def activeCnt (d : DisplayOptions) : Nat :=
  (if d.long then 1 else 0) +
    (if d.oneline && !d.long then 1 else 0) +
    (if d.grid then 1 else 0)

/- ANSI SGR escape strings used by the renderers. -/

def reset : String := "\x1b[0m"
def boldBlue : String := "\x1b[1;34m"
def boldCyan : String := "\x1b[1;96m"
def bold : String := "\x1b[1m"
def yellow : String := "\x1b[33m"
def red : String := "\x1b[31m"
def green : String := "\x1b[32m"
def linkRed : String := "\x1b[0;31m"

/-- Right-aligned minimum-width formatting, Rust `{value:>w}`. -/
def rightAlign (s : String) (w : Nat) : String :=
  String.mk (List.replicate (w - s.length) ' ') ++ s

/-- The size column of `print_entry` (src/lib.rs lines 368-385): bytes
below 10^3, otherwise truncating division by the next power cutoffs
10^6 / 10^9 / 10^12 / 10^15; a directory prints a width-5 dash. -/
def formatSizeField (isDir : Bool) (size : Nat) : String :=
  if !isDir then
    if size < 10 ^ 3 then rightAlign (Nat.repr size) 4 ++ "B"
    else if size < 10 ^ 6 then rightAlign (Nat.repr (size / 10 ^ 6)) 3 ++ "KB"
    else if size < 10 ^ 9 then rightAlign (Nat.repr (size / 10 ^ 9)) 3 ++ "MB"
    else if size < 10 ^ 12 then rightAlign (Nat.repr (size / 10 ^ 12)) 3 ++ "GB"
    else rightAlign (Nat.repr (size / 10 ^ 15)) 3 ++ "TB"
  else rightAlign "-" 5

/-- The size column of the single-entry path inside `parse_arguments`
(src/lib.rs lines 241-257); it differs from `formatSizeField` only in
the bytes branch, which is `" {size:>3}B"` there. -/
def sizeFieldSingle (isDir : Bool) (size : Nat) : String :=
  if !isDir then
    if size < 10 ^ 3 then " " ++ rightAlign (Nat.repr size) 3 ++ "B"
    else if size < 10 ^ 6 then rightAlign (Nat.repr (size / 10 ^ 6)) 3 ++ "KB"
    else if size < 10 ^ 9 then rightAlign (Nat.repr (size / 10 ^ 9)) 3 ++ "MB"
    else if size < 10 ^ 12 then rightAlign (Nat.repr (size / 10 ^ 12)) 3 ++ "GB"
    else rightAlign (Nat.repr (size / 10 ^ 15)) 3 ++ "TB"
  else rightAlign "-" 5

/-- The nine coloured permission characters, shared by both renderers
(src/lib.rs lines 189-237 and 316-364).  `m` is the `st_mode` value of
`metadata.permissions().mode()`. -/
def permsStr (m : Nat) : String :=
  (if m &&& 0b100000000 = 0b100000000 then bold ++ yellow ++ "r" ++ reset
    else bold ++ yellow ++ "-" ++ reset) ++
  (if m &&& 0b010000000 = 0b010000000 then bold ++ red ++ "w" ++ reset
    else bold ++ red ++ "-" ++ reset) ++
  (if m &&& 0b001000000 = 0b001000000 then bold ++ green ++ "x" ++ reset
    else bold ++ green ++ "-" ++ reset) ++
  (if m &&& 0b000100000 = 0b000100000 then yellow ++ "r" ++ reset
    else yellow ++ "-" ++ reset) ++
  (if m &&& 0b000010000 = 0b000010000 then red ++ "w" ++ reset
    else red ++ "-" ++ reset) ++
  (if m &&& 0b000001000 = 0b000001000 then green ++ "x" ++ reset
    else green ++ "-" ++ reset) ++
  (if m &&& 0b000000100 = 0b000000100 then yellow ++ "r" ++ reset
    else yellow ++ "-" ++ reset) ++
  (if m &&& 0b000000010 = 0b000000010 then red ++ "w" ++ reset
    else red ++ "-" ++ reset) ++
  (if m &&& 0b000000001 = 0b000000001 then green ++ "x" ++ reset
    else green ++ "-" ++ reset)

/-- Coloured `d` / `-` / `l` type glyph of the long mode. -/
def typeGlyph (color : String) (isDir isFile : Bool) : String :=
  if isDir then color ++ "d" ++ reset
  else if isFile then color ++ "-" ++ reset
  else color ++ "l" ++ reset

/-- The underlined long-mode header line (without its newline). -/
def headerLine : String :=
  "\x1b[4mPermissions\x1b[0m  \x1b[4mSize\x1b[0m  \x1b[4mName\x1b[0m"

/-- A directory member as the renderer sees it after the fallible
lookups have succeeded: decoded name, `FileType` answers, metadata mode
and size, and the resolved target used when `long` mode prints a
symlink arrow.  The fatal I/O paths of `run` (iteration errors,
non-Unicode names, metadata or readlink failures, all of which abort
the whole listing with exit 1) are outside the claims treated here, so
entries carry already-decoded attributes. -/
structure Entry where
  name : String
  isDir : Bool
  isFile : Bool
  isSymlink : Bool
  mode : Nat
  size : Nat
  linkTarget : String
deriving DecidableEq, Repr

/-- Colour chosen for an entry (src/lib.rs lines 291-297): directory
bold blue, symlink bold cyan, otherwise bold. -/
def entryColorOf (e : Entry) : String :=
  if e.isDir then boldBlue
  else if e.isSymlink then boldCyan
  else bold

/-- Output of `print_entry` (src/lib.rs lines 282-402) for one entry as
a single string: optional long-mode table columns, then the coloured
name (with arrow notation for a symlink in long mode, otherwise five
trailing padding spaces), then a newline exactly in long or oneline
mode. -/
def printEntryStr (d : DisplayOptions) (e : Entry) : String :=
  let c := entryColorOf e
  (if d.long then
      typeGlyph c e.isDir e.isFile ++ permsStr e.mode ++ "  " ++
        formatSizeField e.isDir e.size ++ "  "
    else "") ++
  (if d.long && e.isSymlink then
      c ++ e.name ++ reset ++ " -> " ++ linkRed ++ e.linkTarget ++ reset
    else c ++ e.name ++ "     " ++ reset) ++
  (if d.long || d.oneline then "\n" else "")

/-- The per-entry inclusion-and-print decision of `run` (src/lib.rs
lines 428-444), kept with the exact branch structure of the source;
`""` is produced where the source prints nothing. -/
def runEntry (d : DisplayOptions) (f : FilteringOptions) (e : Entry) : String :=
  if f.only_dirs && e.isDir then
    if f.all then printEntryStr d e
    else if !(strStarts e.name ".") then printEntryStr d e
    else ""
  else if f.only_files && e.isFile then
    if f.all then printEntryStr d e
    else if !(strStarts e.name ".") then printEntryStr d e
    else ""
  else if !f.all && !(strStarts e.name ".") then printEntryStr d e
  else printEntryStr d e

/-- The entry loop of `run`, in enumeration order. -/
def runEntries (d : DisplayOptions) (f : FilteringOptions) : List Entry → String
  | [] => ""
  | e :: es => runEntry d f e ++ runEntries d f es

/-- Full standard output of `run` (src/lib.rs lines 404-450): long-mode
header, the entry loop, and a trailing newline exactly in grid mode. -/
def runStr (d : DisplayOptions) (f : FilteringOptions) (es : List Entry) : String :=
  (if d.long then headerLine ++ "\n" else "") ++
    runEntries d f es ++
    (if d.grid then "\n" else "")

/-- Result of `fs::metadata` on the target path. -/
structure FileMeta where
  isDir : Bool
  isFile : Bool
  isSymlink : Bool
  mode : Nat
  size : Nat
deriving DecidableEq, Repr

/-- The external collaborators: filesystem calls (errors carry the I/O
message passed through verbatim by `err_handling`) and the Cargo
package metadata baked into `main` via `env!`.  Cargo.toml is not under
src/, so the three package strings are left abstract. -/
structure Env where
  metadataOf : String → Except String FileMeta
  readLinkOf : String → Except String String
  readDirOf : String → Except String (List Entry)
  pkgName : String
  pkgDescr : String
  pkgVersion : String

/-- What `parse_arguments` resolves to: hand a directory stream to
`run`, or terminate the process (single-entry print with exit 0, or a
diagnostic with exit 1). -/
inductive ParseResult where
  | dirListing (path : String) (d : DisplayOptions) (f : FilteringOptions)
  | renderOne (out : String)
  | errExit (msg : String)
deriving Repr

def helpHint : String := "For help, try running 'minils --help'"

def invalidOptSuffix : String :=
  ": Invalid option. For help, try running 'minils --help'"

def missingOptMsg : String :=
  "Option not specified. For help, try running 'minils --help'"

def parseErrMsg : String :=
  "Error parsing option. For help, try running 'minils --help'"

/-- The single-entry print of the positional branch (src/lib.rs lines
156-273): optional long-mode header and table columns, the coloured
name or arrow notation, a final newline, then exit 0. -/
def singleRender (env : Env) (entryName color : String) (m : FileMeta)
    (d : DisplayOptions) : ParseResult :=
  let headPart :=
    if d.long then
      headerLine ++ "\n" ++ typeGlyph color m.isDir m.isFile ++ permsStr m.mode ++
        "  " ++ sizeFieldSingle m.isDir m.size ++ "  "
    else ""
  if d.long && m.isSymlink then
    match env.readLinkOf entryName with
    | .error e => .errExit e
    | .ok target =>
        .renderOne (headPart ++ color ++ entryName ++ reset ++ " -> " ++
          linkRed ++ target ++ reset ++ "\n")
  else .renderOne (headPart ++ color ++ entryName ++ "     " ++ reset ++ "\n")

/-- The positional-argument branch of `parse_arguments` (src/lib.rs
lines 155-277).  Note the source indexes `args[i]` while the current
element is `args[i + 1]`; the model reproduces that by receiving `i`
and reading `args.getD i`. -/
def resolveTarget (env : Env) (args : List String) (i : Nat)
    (d : DisplayOptions) (f : FilteringOptions) : ParseResult :=
  match env.metadataOf (args.getD i "") with
  | .error e => .errExit e
  | .ok m =>
    if m.isDir && f.list_dirs then singleRender env (args.getD i "") boldBlue m d
    else if m.isDir then .dirListing (args.getD i "") d f
    else if m.isSymlink then singleRender env (args.getD i "") boldCyan m d
    else singleRender env (args.getD i "") bold m d

/-- The scan loop of `parse_arguments` (src/lib.rs lines 64-279).  The
iterator has already skipped `args[0]`, so at index `i` the current
element is `args[i + 1]`; the positional branch nevertheless tests
`i == args.len() - 1` and reads `args[i]`, exactly as the source does. -/
def parseGo (env : Env) (args : List String) :
    Nat → DisplayOptions → FilteringOptions → List String → ParseResult
  | _, d, f, [] => .dirListing "." d f
  | i, d, f, el :: rest =>
    if strStarts el "--" then
      match stepLong el (d, f) with
      | some (d', f') => parseGo env args (i + 1) d' f' rest
      | none => .errExit (el ++ invalidOptSuffix)
    else if strStarts el "-" then
      if el.length < 2 then .errExit missingOptMsg
      else
        match stepCluster (d, f) (el.data.drop 1) with
        | .ok (d', f') => parseGo env args (i + 1) d' f' rest
        | .error c => .errExit (String.singleton c ++ invalidOptSuffix)
    else if i = args.length - 1 then resolveTarget env args i d f
    else .errExit parseErrMsg

/-- `parse_arguments` (src/lib.rs lines 56-280): scan everything after
the program name; if the loop completes, the listing target defaults to
the current directory. -/
def parseArguments (env : Env) (args : List String)
    (d : DisplayOptions) (f : FilteringOptions) : ParseResult :=
  parseGo env args 0 d f (args.drop 1)

/-- Observable final state of the process: exit status plus the printed
text (standard output for `exit0`, the diagnostic line for `exit1`). -/
inductive Outcome where
  | exit0 (stdout : String)
  | exit1 (errMsg : String)
deriving Repr

/-- `main` (src/main.rs): the help/version special cases for a sole
argument, then `parse_arguments` followed by `run`.  `HELP` is the
usage text constant; its exact content is immaterial to the claims, so
it is abbreviated to its first line here. -/
def HELP : String :=
  "List directory contents.\n" ++
  "Ignore files and directories starting with a '.' by default\n"

def execProgram (env : Env) (args : List String) : Outcome :=
  if args.length == 2 && (args.getD 1 "" == "--help" || args.getD 1 "" == "-?") then
    .exit0 (HELP ++ "\n")
  else if args.length == 2 && (args.getD 1 "" == "--version" || args.getD 1 "" == "-v") then
    .exit0 (env.pkgName ++ " - " ++ env.pkgDescr ++ "\n" ++ "v" ++ env.pkgVersion ++ "\n")
  else
    match parseArguments env args initDisplay initFilter with
    | .errExit msg => .exit1 msg
    | .renderOne out => .exit0 out
    | .dirListing path d f =>
      match env.readDirOf path with
      | .error e => .exit1 e
      | .ok es => .exit0 (runStr d f es)

/-- A string ends with the help hint. -/
def endsWithHint (s : String) : Prop :=
  ∃ p, s.data = p ++ helpHint.data

/-- Whether a string contains a newline character. -/
def hasNL (s : String) : Bool := s.data.contains '\n'

/-- Display state after the recurse flag has fired from the default
state: grid cleared, no style flag set. -/
def recDisplay : DisplayOptions :=
  { oneline := false, grid := false, long := false, recurse := true }

/- Concrete fixtures used by counterexamples and witnesses. -/

def hiddenEntry : Entry :=
  { name := ".hidden", isDir := false, isFile := true, isSymlink := false,
    mode := 420, size := 12, linkTarget := "" }

def txtEntry : Entry :=
  { name := "notes.txt", isDir := false, isFile := true, isSymlink := false,
    mode := 420, size := 5, linkTarget := "" }

def onlyDirsF : FilteringOptions :=
  { all := false, list_dirs := false, only_dirs := true, only_files := false }

def envW : Env :=
  { metadataOf := fun _ => .error "", readLinkOf := fun _ => .error "",
    readDirOf := fun _ => .error "", pkgName := "", pkgDescr := "", pkgVersion := "" }

def envR : Env :=
  { metadataOf := fun _ => .error "", readLinkOf := fun _ => .error "",
    readDirOf := fun _ => .ok [txtEntry], pkgName := "", pkgDescr := "",
    pkgVersion := "" }

end Minils

namespace Minils

/-! Shared helper lemmas. -/

theorem strData_append (s t : String) : (s ++ t).data = s.data ++ t.data := by
  cases s; cases t; rfl

theorem endsWithHint_append (x m : String) (h : endsWithHint m) :
    endsWithHint (x ++ m) := by
  obtain ⟨p, hp⟩ := h
  exact ⟨x.data ++ p, by rw [strData_append, hp, List.append_assoc]⟩

theorem endsWithHint_invalid : endsWithHint invalidOptSuffix :=
  ⟨": Invalid option. ".data, by decide⟩

theorem endsWithHint_missing : endsWithHint missingOptMsg :=
  ⟨"Option not specified. ".data, by decide⟩

theorem endsWithHint_parseErr : endsWithHint parseErrMsg :=
  ⟨"Error parsing option. ".data, by decide⟩

theorem longAction_isSome_of_step (el : String) (st st1 : DisplayOptions × FilteringOptions)
    (h : stepLong el st = some st1) : (longAction el).isSome = true := by
  unfold stepLong at h
  cases hle : longAction el <;> rw [hle] at h <;> simp_all

theorem cluster_all_of_ok (cs : List Char) :
    ∀ st st1, stepCluster st cs = .ok st1 →
      (cs.all fun c => (shortAction c).isSome) = true := by
  induction cs with
  | nil => intro st st1 h; rfl
  | cons c cs ih =>
    intro st st1 h
    rw [stepCluster] at h
    cases hs : stepShort st c with
    | none => rw [hs] at h; cases h
    | some s1 =>
      rw [hs] at h
      have hsome : (shortAction c).isSome = true := by
        unfold stepShort at hs
        cases hsc : shortAction c <;> rw [hsc] at hs <;> simp_all
      simp [List.all_cons, hsome, ih s1 st1 h]

/-- Key scan lemma: as long as the remaining argument list holds some
element that is not a valid flag, the scan ends in `errExit` with a
diagnostic ending in the help hint.  The index invariant
`i + 1 + rest.length = args.length` (the current element is
`args[i + 1]`) shows the positional branch testing `i == args.len() - 1`
can never fire. -/
theorem parseGo_invalid (env : Env) (args : List String) :
    ∀ (rest : List String) (i : Nat) (d : DisplayOptions) (f : FilteringOptions),
      i + 1 + rest.length = args.length →
      (∃ el ∈ rest, validFlag el = false) →
      ∃ msg, parseGo env args i d f rest = .errExit msg ∧ endsWithHint msg := by
  intro rest
  induction rest with
  | nil =>
    intro i d f hinv hbad
    rcases hbad with ⟨el, hel, _⟩
    exact absurd hel (List.not_mem_nil el)
  | cons el rest ih =>
    intro i d f hinv hbad
    simp only [List.length_cons] at hinv
    simp only [parseGo]
    by_cases h2 : strStarts el "--"
    · rw [if_pos h2]
      cases hsl : stepLong el (d, f) with
      | none =>
        exact ⟨el ++ invalidOptSuffix, rfl,
          endsWithHint_append el _ endsWithHint_invalid⟩
      | some st1 =>
        obtain ⟨d1, f1⟩ := st1
        have hbad' : ∃ e ∈ rest, validFlag e = false := by
          rcases hbad with ⟨e, he, hv⟩
          rcases List.mem_cons.mp he with rfl | hm
          · exfalso
            rw [validFlag, if_pos h2, longAction_isSome_of_step e (d, f) (d1, f1) hsl] at hv
            cases hv
          · exact ⟨e, hm, hv⟩
        exact ih (i + 1) d1 f1 (by omega) hbad'
    · rw [if_neg h2]
      by_cases h1 : strStarts el "-"
      · rw [if_pos h1]
        by_cases hl : el.length < 2
        · rw [if_pos hl]
          exact ⟨missingOptMsg, rfl, endsWithHint_missing⟩
        · rw [if_neg hl]
          cases hcl : stepCluster (d, f) (el.data.drop 1) with
          | error c =>
            exact ⟨String.singleton c ++ invalidOptSuffix, rfl,
              endsWithHint_append _ _ endsWithHint_invalid⟩
          | ok st1 =>
            obtain ⟨d1, f1⟩ := st1
            have hbad' : ∃ e ∈ rest, validFlag e = false := by
              rcases hbad with ⟨e, he, hv⟩
              rcases List.mem_cons.mp he with rfl | hm
              · exfalso
                rw [validFlag, if_neg h2, if_pos h1, if_neg hl,
                  cluster_all_of_ok _ (d, f) (d1, f1) hcl] at hv
                cases hv
              · exact ⟨e, hm, hv⟩
            exact ih (i + 1) d1 f1 (by omega) hbad'
      · rw [if_neg h1]
        rw [if_neg (by omega : ¬ i = args.length - 1)]
        exact ⟨parseErrMsg, rfl, endsWithHint_parseErr⟩

theorem stepShort_activeCnt (c : Char) (hc : c ≠ 'R')
    (st st' : DisplayOptions × FilteringOptions)
    (h : stepShort st c = some st') (hcnt : activeCnt st.1 = 1) :
    activeCnt st'.1 = 1 := by
  obtain ⟨⟨o, g, l, r⟩, f⟩ := st
  unfold stepShort shortAction at h
  split at h <;> cases h <;> cases l <;> simp_all [activeCnt]

theorem stepLong_activeCnt (el : String) (hel : el ≠ "--recurse")
    (st st' : DisplayOptions × FilteringOptions)
    (h : stepLong el st = some st') (hcnt : activeCnt st.1 = 1) :
    activeCnt st'.1 = 1 := by
  obtain ⟨⟨o, g, l, r⟩, f⟩ := st
  unfold stepLong longAction at h
  split at h <;> cases h <;> cases l <;> simp_all [activeCnt]

theorem stepCluster_activeCnt (cs : List Char) (hc : 'R' ∉ cs) :
    ∀ st st', stepCluster st cs = .ok st' → activeCnt st.1 = 1 → activeCnt st'.1 = 1 := by
  induction cs with
  | nil => intro st st' h hcnt; cases h; exact hcnt
  | cons c cs ih =>
    intro st st' h hcnt
    have hc1 : c ≠ 'R' := by
      intro he
      subst he
      exact hc (List.mem_cons_self _ _)
    have hc2 : 'R' ∉ cs := fun he => hc (List.mem_cons_of_mem c he)
    rw [stepCluster] at h
    cases hs : stepShort st c with
    | none => rw [hs] at h; cases h
    | some s1 =>
      rw [hs] at h
      exact ih hc2 s1 st' h (stepShort_activeCnt c hc1 st s1 hs hcnt)

theorem applyArg_activeCnt (el : String) (hel : mentionsRecurse el = false)
    (st st' : DisplayOptions × FilteringOptions)
    (h : applyArg st el = some st') (hcnt : activeCnt st.1 = 1) :
    activeCnt st'.1 = 1 := by
  unfold applyArg at h
  unfold mentionsRecurse at hel
  rw [Bool.or_eq_false_iff] at hel
  by_cases h2 : strStarts el "--"
  · rw [if_pos h2] at h
    have hne : el ≠ "--recurse" := by
      intro he
      rw [he] at hel
      exact absurd hel.1 (by decide)
    exact stepLong_activeCnt el hne st st' h hcnt
  · rw [if_neg h2] at h
    by_cases h1 : strStarts el "-"
    · rw [if_pos h1] at h
      by_cases hl : el.length < 2
      · rw [if_pos hl] at h; cases h
      · rw [if_neg hl] at h
        cases hcl : stepCluster st (el.data.drop 1) with
        | error c => rw [hcl] at h; cases h
        | ok s1 =>
          rw [hcl] at h
          injection h with h
          subst h
          have hr : 'R' ∉ el.data.drop 1 := by
            have hx := hel.2
            have hb2 : strStarts el "--" = false := by simpa using h2
            rw [hb2, h1] at hx
            simp at hx
            rw [List.drop_one]
            exact hx
          exact stepCluster_activeCnt _ hr st _ hcl hcnt
    · rw [if_neg h1] at h; cases h

theorem stateAfter_activeCnt (els : List String)
    (h : ∀ el ∈ els, mentionsRecurse el = false) :
    ∀ st st', stateAfter st els = some st' → activeCnt st.1 = 1 → activeCnt st'.1 = 1 := by
  induction els with
  | nil => intro st st' hst hcnt; cases hst; exact hcnt
  | cons el els ih =>
    intro st st' hst hcnt
    rw [stateAfter, List.foldlM_cons] at hst
    cases happ : applyArg st el with
    | none => rw [happ] at hst; cases hst
    | some s1 =>
      rw [happ] at hst
      exact ih (fun e he => h e (List.mem_cons_of_mem el he)) s1 st' hst
        (applyArg_activeCnt el (h el (List.mem_cons_self el els)) st s1 happ hcnt)

theorem stepShort_excl (c : Char) (st st' : DisplayOptions × FilteringOptions)
    (h : stepShort st c = some st')
    (hinv : (st.2.only_dirs && st.2.only_files) = false) :
    (st'.2.only_dirs && st'.2.only_files) = false := by
  obtain ⟨d, ⟨a, ld, od, ofl⟩⟩ := st
  unfold stepShort shortAction at h
  split at h <;> cases h <;> simp_all

theorem stepLong_excl (el : String) (hel : longOnlyFlag el = false)
    (st st' : DisplayOptions × FilteringOptions)
    (h : stepLong el st = some st')
    (hinv : (st.2.only_dirs && st.2.only_files) = false) :
    (st'.2.only_dirs && st'.2.only_files) = false := by
  obtain ⟨d, ⟨a, ld, od, ofl⟩⟩ := st
  unfold longOnlyFlag at hel
  unfold stepLong longAction at h
  split at h <;> cases h <;> simp_all

theorem stepCluster_excl (cs : List Char) :
    ∀ st st', stepCluster st cs = .ok st' →
      (st.2.only_dirs && st.2.only_files) = false →
      (st'.2.only_dirs && st'.2.only_files) = false := by
  induction cs with
  | nil => intro st st' h hinv; cases h; exact hinv
  | cons c cs ih =>
    intro st st' h hinv
    rw [stepCluster] at h
    cases hs : stepShort st c with
    | none => rw [hs] at h; cases h
    | some s1 =>
      rw [hs] at h
      exact ih s1 st' h (stepShort_excl c st s1 hs hinv)

theorem applyArg_excl (el : String) (hel : longOnlyFlag el = false)
    (st st' : DisplayOptions × FilteringOptions)
    (h : applyArg st el = some st')
    (hinv : (st.2.only_dirs && st.2.only_files) = false) :
    (st'.2.only_dirs && st'.2.only_files) = false := by
  unfold applyArg at h
  by_cases h2 : strStarts el "--"
  · rw [if_pos h2] at h
    exact stepLong_excl el hel st st' h hinv
  · rw [if_neg h2] at h
    by_cases h1 : strStarts el "-"
    · rw [if_pos h1] at h
      by_cases hl : el.length < 2
      · rw [if_pos hl] at h; cases h
      · rw [if_neg hl] at h
        cases hcl : stepCluster st (el.data.drop 1) with
        | error c => rw [hcl] at h; cases h
        | ok s1 =>
          rw [hcl] at h
          injection h with h
          subst h
          exact stepCluster_excl _ st _ hcl hinv
    · rw [if_neg h1] at h; cases h

theorem stateAfter_excl (els : List String)
    (h : ∀ el ∈ els, longOnlyFlag el = false) :
    ∀ st st', stateAfter st els = some st' →
      (st.2.only_dirs && st.2.only_files) = false →
      (st'.2.only_dirs && st'.2.only_files) = false := by
  induction els with
  | nil => intro st st' hst hinv; cases hst; exact hinv
  | cons el els ih =>
    intro st st' hst hinv
    rw [stateAfter, List.foldlM_cons] at hst
    cases happ : applyArg st el with
    | none => rw [happ] at hst; cases hst
    | some s1 =>
      rw [happ] at hst
      exact ih (fun e he => h e (List.mem_cons_of_mem el he)) s1 st' hst
        (applyArg_excl el (h el (List.mem_cons_self el els)) st s1 happ hinv)

theorem hasNL_append (s t : String) : hasNL (s ++ t) = (hasNL s || hasNL t) := by
  unfold hasNL
  rw [strData_append]
  simp [List.elem_eq_mem, List.mem_append]

theorem runEntry_sub (d : DisplayOptions) (f : FilteringOptions) (e : Entry) :
    runEntry d f e = printEntryStr d e ∨ runEntry d f e = "" := by
  unfold runEntry
  repeat' split
  all_goals simp

theorem hasNL_printEntry_rec (e : Entry) (h : hasNL e.name = false) :
    hasNL (printEntryStr recDisplay e) = false := by
  unfold printEntryStr entryColorOf
  simp only [recDisplay]
  repeat' split
  all_goals simp_all [hasNL_append]
  all_goals decide

theorem hasNL_runEntries_rec (f : FilteringOptions) (es : List Entry)
    (h : ∀ e ∈ es, hasNL e.name = false) :
    hasNL (runEntries recDisplay f es) = false := by
  induction es with
  | nil => rfl
  | cons e es ih =>
    rw [runEntries, hasNL_append]
    have he : hasNL (runEntry recDisplay f e) = false := by
      rcases runEntry_sub recDisplay f e with hr | hr
      · rw [hr]; exact hasNL_printEntry_rec e (h e (List.mem_cons_self e es))
      · rw [hr]; decide
    rw [he, ih fun e2 he2 => h e2 (List.mem_cons_of_mem e he2)]
    rfl

theorem hasNL_runStr_rec (f : FilteringOptions) (es : List Entry)
    (h : ∀ e ∈ es, hasNL e.name = false) :
    hasNL (runStr recDisplay f es) = false := by
  unfold runStr
  rw [if_neg (by decide : ¬ recDisplay.long = true),
    if_neg (by decide : ¬ recDisplay.grid = true)]
  rw [hasNL_append, hasNL_append, hasNL_runEntries_rec f es h]
  decide

theorem stateAfter_rec_fix (rest : List String)
    (hall : ∀ el ∈ rest, el = "-R" ∨ el = "--recurse") (f : FilteringOptions) :
    stateAfter (recDisplay, f) rest = some (recDisplay, f) := by
  induction rest with
  | nil => rfl
  | cons el rest ih =>
    rw [stateAfter, List.foldlM_cons]
    rcases hall el (List.mem_cons_self el rest) with rfl | rfl
    · exact ih fun e he => hall e (List.mem_cons_of_mem _ he)
    · exact ih fun e he => hall e (List.mem_cons_of_mem _ he)

/-- When every scanned argument is consumed as a valid flag, the scan
completes and resolves to listing the current directory with the folded
option state. -/
theorem parseGo_flags (env : Env) (args : List String) :
    ∀ (rest : List String) (i : Nat) (d : DisplayOptions) (f : FilteringOptions)
      (st' : DisplayOptions × FilteringOptions),
      stateAfter (d, f) rest = some st' →
      parseGo env args i d f rest = .dirListing "." st'.1 st'.2 := by
  intro rest
  induction rest with
  | nil =>
    intro i d f st' hst
    cases hst
    rfl
  | cons el rest ih =>
    intro i d f st' hst
    rw [stateAfter, List.foldlM_cons] at hst
    cases happ : applyArg (d, f) el with
    | none => rw [happ] at hst; cases hst
    | some s1 =>
      rw [happ] at hst
      unfold applyArg at happ
      simp only [parseGo]
      by_cases h2 : strStarts el "--"
      · rw [if_pos h2] at happ ⊢
        obtain ⟨d1, f1⟩ := s1
        rw [happ]
        exact ih (i + 1) d1 f1 st' hst
      · rw [if_neg h2] at happ ⊢
        by_cases h1 : strStarts el "-"
        · rw [if_pos h1] at happ ⊢
          by_cases hl : el.length < 2
          · rw [if_pos hl] at happ; cases happ
          · rw [if_neg hl] at happ ⊢
            cases hcl : stepCluster (d, f) (el.data.drop 1) with
            | error c => rw [hcl] at happ; cases happ
            | ok s2 =>
              obtain ⟨d1, f1⟩ := s2
              rw [hcl] at happ
              injection happ with happ
              subst happ
              exact ih (i + 1) d1 f1 st' hst
        · rw [if_neg h1] at happ; cases happ

end Minils

namespace Minils

/-! Claim theorems. -/

/-- C1: the claim says that with neither only-flag set an entry whose
name starts with a dot is rendered only when `all` is set and that
excluded entries produce no output.  The final `else` arm of the filter
chain in `run` prints unconditionally, so the dot entry `.hidden` is
rendered even though `all` is false: the inclusion decision produces a
nonempty output string where the claim requires the empty one. -/
theorem C1_hidden_rendered_without_all :
    runEntry initDisplay initFilter hiddenEntry ≠ "" := by decide

/-- C2: the claim says a bare path naming a regular file as the last
argument is rendered as one line with exit 0.  The scan skips `args[0]`
and then enumerates from zero, so the current element is `args[i + 1]`
while the positional branch tests `i == args.len() - 1`; the test can
never hold, so `minils notes.txt` falls into the misplaced-positional
arm and exits 1 with the parse-error diagnostic, for every filesystem
(the metadata of the file is never even consulted). -/
theorem C2_file_argument_rejected (env : Env) :
    execProgram env ["minils", "notes.txt"] = .exit1 parseErrMsg := rfl

/-- C3: the claim says that with `only_dirs` set every rendered entry
is a directory and every rendered entry passes the dotfile gate.  After
`--only-dirs` (first conjunct: the parsed state), a regular file fails
the `only_dirs && is_dir` test, falls through to the final `else` arm
and is printed anyway (second conjunct), and even a dot-named regular
file is printed with `all` unset (third conjunct). -/
theorem C3_only_dirs_renders_file :
    stateAfter initState ["--only-dirs"] = some (initDisplay, onlyDirsF)
  ∧ runEntry initDisplay onlyDirsF txtEntry ≠ ""
  ∧ runEntry initDisplay onlyDirsF hiddenEntry ≠ "" := by decide

/-- C4 counterexample: after processing the prefix `["-R"]` the display
state has `oneline`, `grid` and `long` all false, so zero of the three
modes are active, refuting the claim that exactly one of {OneLine,
Grid, Long} is active after every prefix. -/
theorem C4_counterexample :
    stateAfter initState ["-R"] = some (recDisplay, initFilter)
  ∧ recDisplay.oneline = false ∧ recDisplay.grid = false ∧ recDisplay.long = false
  ∧ activeCnt recDisplay = 0 := by decide

/-- C4 amended: after processing any prefix of the argument vector that
contains no recurse flag (`--recurse`, or a cluster with `R`), exactly
one of {Long, OneLine, Grid} is active, where `long` subsumes the
`oneline` flag it forces; a recurse flag clears `grid` without setting
a style, which is the sole way to leave zero modes active. -/
theorem C4_amended (els : List String) (h : ∀ el ∈ els, mentionsRecurse el = false)
    (st' : DisplayOptions × FilteringOptions)
    (hst : stateAfter initState els = some st') :
    activeCnt st'.1 = 1 :=
  stateAfter_activeCnt els h initState st' hst (by decide)

/-- C4 witness: the amended claim applied to the prefix `["--long"]`. -/
theorem C4_witness : activeCnt ⟨true, false, true, false⟩ = 1 :=
  C4_amended ["--long"] (by decide)
    ((⟨true, false, true, false⟩ : DisplayOptions), initFilter) (by decide)

/-- C5 counterexample: the claim says long-form `--only-dirs` leaves
`all` unchanged, so after `--all --only-dirs` the `all` flag would
still be true; the match arm assigns `all = false`, and the resulting
state has `all` false. -/
theorem C5_counterexample :
    stateAfter initState ["--all", "--only-dirs"] = some (initDisplay, onlyDirsF)
  ∧ onlyDirsF.all = false := by decide

/-- C5 amended: both long-form `--only-dirs`/`--only-files` and
short-form `D`/`f` set `all` to false; the actual asymmetry is that the
long forms leave the opposing only-flag unchanged while the short forms
clear it. -/
theorem C5_amended (d : DisplayOptions) (f : FilteringOptions) :
    stepLong "--only-dirs" (d, f) = some (d, { f with only_dirs := true, all := false })
  ∧ stepLong "--only-files" (d, f) = some (d, { f with only_files := true, all := false })
  ∧ ({ f with only_dirs := true, all := false } : FilteringOptions).only_files = f.only_files
  ∧ ({ f with only_files := true, all := false } : FilteringOptions).only_dirs = f.only_dirs
  ∧ stepShort (d, f) 'D' =
      some (d, { f with only_dirs := true, only_files := false, all := false })
  ∧ stepShort (d, f) 'f' =
      some (d, { f with only_files := true, only_dirs := false, all := false }) :=
  ⟨rfl, rfl, rfl, rfl, rfl, rfl⟩

/-- C6 counterexample: the vector `["--only-dirs", "--only-files"]`
leaves both only-flags true, refuting the claimed mutual-exclusion
invariant: the long-form arms do not clear the opposing flag. -/
theorem C6_counterexample :
    stateAfter initState ["--only-dirs", "--only-files"] =
      some (initDisplay,
        { all := false, list_dirs := false, only_dirs := true, only_files := true }) := by
  decide

/-- C6 amended: `only_dirs` and `only_files` are never both true after
any prefix that sets only-flags exclusively through the short forms
(which do clear the opposite flag); the long forms can violate it. -/
theorem C6_amended (els : List String) (h : ∀ el ∈ els, longOnlyFlag el = false)
    (st' : DisplayOptions × FilteringOptions)
    (hst : stateAfter initState els = some st') :
    ¬(st'.2.only_dirs = true ∧ st'.2.only_files = true) := by
  intro hboth
  have hx := stateAfter_excl els h initState st' hst (by decide)
  rw [hboth.1, hboth.2] at hx
  cases hx

/-- C6 witness: the amended claim applied to the prefix `["-D"]`. -/
theorem C6_witness : ¬(onlyDirsF.only_dirs = true ∧ onlyDirsF.only_files = true) :=
  C6_amended ["-D"] (by decide) (initDisplay, onlyDirsF) (by decide)

/-- C7: in long mode a non-directory entry below 1000 bytes renders
its byte count with suffix `B` (size 500 gives ` 500B`); otherwise the
size is truncated by integer division with divisors 10^6 (KB), 10^9
(MB), 10^12 (GB) and 10^15 (TB), so every size in 1000..999999 shows
as `  0KB`; a directory shows a width-5 right-aligned dash. -/
theorem C7_size_format (n : Nat) :
    (n < 1000 → formatSizeField false n = rightAlign (Nat.repr n) 4 ++ "B")
  ∧ formatSizeField false 500 = " 500B"
  ∧ (1000 ≤ n → n < 10 ^ 6 →
      formatSizeField false n = rightAlign (Nat.repr (n / 10 ^ 6)) 3 ++ "KB"
      ∧ formatSizeField false n = "  0KB")
  ∧ (10 ^ 6 ≤ n → n < 10 ^ 9 →
      formatSizeField false n = rightAlign (Nat.repr (n / 10 ^ 9)) 3 ++ "MB")
  ∧ (10 ^ 9 ≤ n → n < 10 ^ 12 →
      formatSizeField false n = rightAlign (Nat.repr (n / 10 ^ 12)) 3 ++ "GB")
  ∧ (10 ^ 12 ≤ n → formatSizeField false n = rightAlign (Nat.repr (n / 10 ^ 15)) 3 ++ "TB")
  ∧ formatSizeField true n = rightAlign "-" 5 := by
  refine ⟨?_, by decide, ?_, ?_, ?_, ?_, by simp [formatSizeField]⟩
  · intro h
    simp [formatSizeField, h]
  · intro h1 h2
    norm_num at h2
    have h0 : n / 1000000 = 0 := Nat.div_eq_of_lt h2
    constructor
    · simp [formatSizeField, show ¬ n < 1000 from by omega, h2]
    · simp [formatSizeField, show ¬ n < 1000 from by omega, h2, h0]
      rfl
  · intro h1 h2
    norm_num at h1 h2
    simp [formatSizeField, show ¬ n < 1000 from by omega,
      show ¬ n < 1000000 from by omega, h2]
  · intro h1 h2
    norm_num at h1 h2
    simp [formatSizeField, show ¬ n < 1000 from by omega,
      show ¬ n < 1000000 from by omega, show ¬ n < 1000000000 from by omega, h2]
  · intro h1
    norm_num at h1
    simp [formatSizeField, show ¬ n < 1000 from by omega,
      show ¬ n < 1000000 from by omega, show ¬ n < 1000000000 from by omega,
      show ¬ n < 1000000000000 from by omega]

/-- C7 witness: the size-format claim evaluated at 999999 (the KB
truncation case, discharging both bounds) and at 500 (the bytes case). -/
theorem C7_witness :
    formatSizeField false 999999 = "  0KB" ∧ formatSizeField false 500 = " 500B" :=
  ⟨((C7_size_format 999999).2.2.1 (by norm_num) (by norm_num)).2,
    (C7_size_format 500).2.1⟩

/-- C8 counterexample: the claim says the last-applied flag among
{oneline, long, grid} determines the final mode; after
`--long --oneline` the `long` flag is still set (the oneline arm does
not clear it), so the renderer stays in Long mode, not OneLine. -/
theorem C8_counterexample :
    stateAfter initState ["--long", "--oneline"] =
      some ({ oneline := true, grid := false, long := true, recurse := false }, initFilter)
  ∧ activeMode { oneline := true, grid := false, long := true, recurse := false } =
      some Mode.long := by decide

/-- C8 amended: between `long` and `grid` the last applied flag wins,
from any starting state (`--long` after `--grid` yields Long, `--grid`
after `--long` yields Grid, as the claim states), but `--oneline` after
`--long` leaves Long active because the oneline arm does not clear the
long flag. -/
theorem C8_amended (st : DisplayOptions × FilteringOptions) :
    (stateAfter st ["--grid", "--long"]).map (fun p => activeMode p.1) = some (some Mode.long)
  ∧ (stateAfter st ["--long", "--grid"]).map (fun p => activeMode p.1) = some (some Mode.grid)
  ∧ (stateAfter st ["--long", "--oneline"]).map (fun p => activeMode p.1) =
      some (some Mode.long) := by
  obtain ⟨d, f⟩ := st
  exact ⟨rfl, rfl, rfl⟩

/-- C9: any argument vector containing an element that is not a valid
flag (unknown long option, a cluster with an unrecognised character, a
bare dash, or a misplaced positional token) makes the program exit with
status 1 and a diagnostic ending in the help hint, except for the sole
meta arguments handled by `main` (`--help`, `-?`, `--version`, `-v`);
and a bare dash reached as the first scanned argument fails with the
missing-option message. -/
theorem C9_invalid_option_diagnostics :
    (∀ (env : Env) (args : List String),
        (∃ el ∈ args.drop 1, validFlag el = false) →
        (args.length = 2 → args.getD 1 "" ∉ (["--help", "-?", "--version", "-v"] : List String)) →
        ∃ msg, execProgram env args = .exit1 msg ∧ endsWithHint msg)
  ∧ (∀ (env : Env) (rest : List String),
        execProgram env ("minils" :: "-" :: rest) = .exit1 missingOptMsg) := by
  constructor
  · intro env args hbad hmeta
    cases args with
    | nil =>
      rcases hbad with ⟨el, hel, _⟩
      exact absurd hel (List.not_mem_nil el)
    | cons a0 tail =>
      have hinv : 0 + 1 + tail.length = (a0 :: tail).length := by
        simp only [List.length_cons]
        omega
      obtain ⟨msg, hmsg, hhint⟩ :=
        parseGo_invalid env (a0 :: tail) tail 0 initDisplay initFilter hinv
          (by simpa using hbad)
      refine ⟨msg, ?_, hhint⟩
      have hno1 : ¬ (((a0 :: tail).length == 2 &&
          ((a0 :: tail).getD 1 "" == "--help" || (a0 :: tail).getD 1 "" == "-?")) = true) := by
        intro hcond
        rw [Bool.and_eq_true, Bool.or_eq_true] at hcond
        obtain ⟨hlen, hname⟩ := hcond
        have hm := hmeta (eq_of_beq hlen)
        simp only [List.mem_cons, List.mem_singleton, not_or] at hm
        rcases hname with hname | hname
        · exact hm.1 (eq_of_beq hname)
        · exact hm.2.1 (eq_of_beq hname)
      have hno2 : ¬ (((a0 :: tail).length == 2 &&
          ((a0 :: tail).getD 1 "" == "--version" || (a0 :: tail).getD 1 "" == "-v")) = true) := by
        intro hcond
        rw [Bool.and_eq_true, Bool.or_eq_true] at hcond
        obtain ⟨hlen, hname⟩ := hcond
        have hm := hmeta (eq_of_beq hlen)
        simp only [List.mem_cons, List.mem_singleton, not_or] at hm
        rcases hname with hname | hname
        · exact hm.2.2.1 (eq_of_beq hname)
        · exact hm.2.2.2.1 (eq_of_beq hname)
      rw [execProgram, if_neg hno1, if_neg hno2, parseArguments]
      simp only [List.drop_succ_cons, List.drop_zero]
      rw [hmsg]
  · intro env rest
    rw [execProgram]
    rw [if_neg (by simp : ¬ (("minils" :: "-" :: rest).length == 2 &&
        (("minils" :: "-" :: rest).getD 1 "" == "--help" ||
          ("minils" :: "-" :: rest).getD 1 "" == "-?")) = true)]
    rw [if_neg (by simp : ¬ (("minils" :: "-" :: rest).length == 2 &&
        (("minils" :: "-" :: rest).getD 1 "" == "--version" ||
          ("minils" :: "-" :: rest).getD 1 "" == "-v")) = true)]
    rw [parseArguments]
    simp only [List.drop_succ_cons, List.drop_zero]
    rw [parseGo]
    rw [if_neg (by decide : ¬ strStarts "-" "--" = true),
      if_pos (by decide : strStarts "-" "-" = true),
      if_pos (by decide : "-".length < 2)]

/-- C9 witness: the diagnostics claim applied to the vector
`["minils", "--bogus"]`, discharging both hypotheses. -/
theorem C9_witness :
    ∃ msg, execProgram envW ["minils", "--bogus"] = .exit1 msg ∧ endsWithHint msg :=
  C9_invalid_option_diagnostics.1 envW ["minils", "--bogus"]
    ⟨"--bogus", by decide, by decide⟩ (by decide)

/-- C10 counterexample: the claim says that whenever the LAST
display-affecting flag is a recurse flag, all three style flags are
false; after `-l -R` the recurse flag was applied last, yet `oneline`
and `long` are still true, so the renderer does emit newlines. -/
theorem C10_counterexample :
    stateAfter initState ["-l", "-R"] =
      some ({ oneline := true, grid := false, long := true, recurse := true }, initFilter) := by
  decide

/-- C10 amended: when every scanned argument is a recurse flag (for
example the vector is just `minils -R`), `oneline`, `grid` and `long`
are all false when rendering begins, and the produced listing contains
no newline at all, neither per entry nor trailing, provided the entry
names themselves contain none. -/
theorem C10_amended (rest : List String) (hne : rest ≠ [])
    (hall : ∀ el ∈ rest, el = "-R" ∨ el = "--recurse")
    (env : Env) (es : List Entry) (hes : env.readDirOf "." = .ok es)
    (hnames : ∀ e ∈ es, hasNL e.name = false) :
    execProgram env ("minils" :: rest) = .exit0 (runStr recDisplay initFilter es)
    ∧ hasNL (runStr recDisplay initFilter es) = false := by
  refine ⟨?_, hasNL_runStr_rec initFilter es hnames⟩
  cases rest with
  | nil => exact absurd rfl hne
  | cons el rest2 =>
    have hst : stateAfter initState (el :: rest2) = some (recDisplay, initFilter) := by
      rw [stateAfter, List.foldlM_cons]
      have hrest2 : ∀ e ∈ rest2, e = "-R" ∨ e = "--recurse" :=
        fun e he => hall e (List.mem_cons_of_mem _ he)
      rcases hall el (List.mem_cons_self el rest2) with rfl | rfl
      · exact stateAfter_rec_fix rest2 hrest2 initFilter
      · exact stateAfter_rec_fix rest2 hrest2 initFilter
    have hgd : ("minils" :: el :: rest2).getD 1 "" = el := rfl
    have helne : el = "-R" ∨ el = "--recurse" := hall el (List.mem_cons_self el rest2)
    have hno1 : ¬ ((("minils" :: el :: rest2).length == 2 &&
        (("minils" :: el :: rest2).getD 1 "" == "--help" ||
          ("minils" :: el :: rest2).getD 1 "" == "-?")) = true) := by
      intro hcond
      rw [Bool.and_eq_true, Bool.or_eq_true] at hcond
      rcases hcond.2 with hname | hname <;>
        (have hx := eq_of_beq hname; rw [hgd] at hx;
          rcases helne with rfl | rfl <;> exact absurd hx (by decide))
    have hno2 : ¬ ((("minils" :: el :: rest2).length == 2 &&
        (("minils" :: el :: rest2).getD 1 "" == "--version" ||
          ("minils" :: el :: rest2).getD 1 "" == "-v")) = true) := by
      intro hcond
      rw [Bool.and_eq_true, Bool.or_eq_true] at hcond
      rcases hcond.2 with hname | hname <;>
        (have hx := eq_of_beq hname; rw [hgd] at hx;
          rcases helne with rfl | rfl <;> exact absurd hx (by decide))
    have hpar : parseGo env ("minils" :: el :: rest2) 0 initDisplay initFilter
        (el :: rest2) = .dirListing "." recDisplay initFilter := by
      simpa using parseGo_flags env ("minils" :: el :: rest2) (el :: rest2) 0
        initDisplay initFilter (recDisplay, initFilter) hst
    rw [execProgram, if_neg hno1, if_neg hno2, parseArguments]
    simp only [List.drop_succ_cons, List.drop_zero, hpar, hes]

/-- C10 witness: the amended claim applied to the vector
`["minils", "-R"]` with one concrete regular-file entry. -/
theorem C10_witness :
    execProgram envR ["minils", "-R"] = .exit0 (runStr recDisplay initFilter [txtEntry])
    ∧ hasNL (runStr recDisplay initFilter [txtEntry]) = false :=
  C10_amended ["-R"] (by decide) (by decide) envR [txtEntry] rfl (by decide)

end Minils
